import Mathlib

/-!
# Verification of the CRDW sweep-and-specify core

Shallow embedding of the repository resolution / keyword-matching /
CSV-serialization logic, together with proofs of the claims of the specification.

Dates are embedded as integers in `yyyymmdd` form; for valid calendar dates
this encoding is order-isomorphic to the JavaScript `Date` ordering that the
source uses, and the source only ever compares dates with `<` and `>=`.
JavaScript strings are embedded as `List Char` where character-level
processing matters, and as `String` where only equality tests occur.
-/

namespace CrdwSweep

/-! ## SystemResolver (`js/system-logic.js`) -/

/-- `const EPIC_GOLIVE = new Date("2023-06-03")`, encoded as `yyyymmdd`. -/
def EPIC_GOLIVE : Int := 20230603

/-- `const ICD10_START = new Date("2015-10-01")`, encoded as `yyyymmdd`. -/
def ICD10_START : Int := 20151001

/-- The `systems` list that `getDxSystems` accumulates before its default
fallback: push `icd10` when `dateEnd >= ICD10_START`, then push `icd9` when
`dateStart < ICD10_START`. -/
def dxRuleSystems (dateStart dateEnd : Int) : List String :=
  (if dateEnd ≥ ICD10_START then ["icd10"] else []) ++
  (if dateStart < ICD10_START then ["icd9"] else [])

/-- `getDxSystems` from `js/system-logic.js`. -/
def getDxSystems (dateStart dateEnd : Int) : List String :=
  let systems := dxRuleSystems dateStart dateEnd
  if systems.length = 0 then ["icd10"] else systems

/-- The `systems` list that `getMedicationSystems` accumulates before its
default fallback: `epic` when after the Epic go-live, `meditech` when before
go-live and inpatient, `centricity` when before go-live and outpatient. -/
def medicationRuleSystems (beforeEpic afterEpic outpatient inpatient : Bool) :
    List String :=
  (if afterEpic then ["epic"] else []) ++
  (if beforeEpic && inpatient then ["meditech"] else []) ++
  (if beforeEpic && outpatient then ["centricity"] else [])

/-- `getMedicationSystems` from `js/system-logic.js`. -/
def getMedicationSystems (beforeEpic afterEpic outpatient inpatient : Bool) :
    List String :=
  let systems := medicationRuleSystems beforeEpic afterEpic outpatient inpatient
  if systems.length = 0 then ["epic"] else systems

/-- The `systems` list that `getLabSystems` accumulates before its default. -/
def labRuleSystems (beforeEpic afterEpic : Bool) : List String :=
  (if afterEpic then ["epic"] else []) ++
  (if beforeEpic then ["meditech"] else [])

/-- `getLabSystems` from `js/system-logic.js`. -/
def getLabSystems (beforeEpic afterEpic : Bool) : List String :=
  let systems := labRuleSystems beforeEpic afterEpic
  if systems.length = 0 then ["epic"] else systems

/-- The `systems` list that `getProcedureSystems` accumulates before its
default. -/
def procedureRuleSystems (beforeEpic afterEpic : Bool) : List String :=
  (if afterEpic then ["epic"] else []) ++
  (if beforeEpic then ["gecb"] else [])

/-- `getProcedureSystems` from `js/system-logic.js`. -/
def getProcedureSystems (beforeEpic afterEpic : Bool) : List String :=
  let systems := procedureRuleSystems beforeEpic afterEpic
  if systems.length = 0 then ["epic"] else systems

/-- The `systems` list that `getLocationSystems` accumulates before its
default: `epic` when after go-live, `gecb` when before go-live and outpatient,
`meditech` when before go-live and inpatient. -/
def locationRuleSystems (beforeEpic afterEpic outpatient inpatient : Bool) :
    List String :=
  (if afterEpic then ["epic"] else []) ++
  (if beforeEpic && outpatient then ["gecb"] else []) ++
  (if beforeEpic && inpatient then ["meditech"] else [])

/-- `getLocationSystems` from `js/system-logic.js`. -/
def getLocationSystems (beforeEpic afterEpic outpatient inpatient : Bool) :
    List String :=
  let systems := locationRuleSystems beforeEpic afterEpic outpatient inpatient
  if systems.length = 0 then ["epic"] else systems

/-- `getActiveSystems` from `js/system-logic.js`: dispatch on the dictionary
type string; unknown types fall through to the empty array. -/
def getActiveSystems (type : String) (dateStart dateEnd : Int)
    (outpatient inpatient : Bool) : List String :=
  let beforeEpic : Bool := decide (dateStart < EPIC_GOLIVE)
  let afterEpic : Bool := decide (dateEnd ≥ EPIC_GOLIVE)
  if type = "dx" then getDxSystems dateStart dateEnd
  else if type = "medication" then
    getMedicationSystems beforeEpic afterEpic outpatient inpatient
  else if type = "lab" then getLabSystems beforeEpic afterEpic
  else if type = "location" then
    getLocationSystems beforeEpic afterEpic outpatient inpatient
  else if type = "procedure" then getProcedureSystems beforeEpic afterEpic
  else []

/-- Any of the `if systems.length === 0` default fallbacks yields a non-empty
list. -/
lemma default_ne_nil (l : List String) (d : String) :
    (if l.length = 0 then [d] else l) ≠ [] := by
  cases l <;> simp

/-- **C1.** For the dictionary type `dx`, `resolve` contains `icd10` iff
`dateEnd ≥ 2015-10-01` and `icd9` iff `dateStart < 2015-10-01` whenever at
least one of the two conditions holds; when neither holds the result is the
singleton `[icd10]`; a range straddling `2015-10-01` yields exactly the
two systems `icd10` and `icd9`; and the result never depends on the
outpatient/inpatient flags. -/
theorem resolve_dx_spec (ds de : Int) (op ip : Bool) :
    (de ≥ ICD10_START ∨ ds < ICD10_START →
        ("icd10" ∈ getActiveSystems "dx" ds de op ip ↔ de ≥ ICD10_START) ∧
        ("icd9" ∈ getActiveSystems "dx" ds de op ip ↔ ds < ICD10_START)) ∧
    (¬ de ≥ ICD10_START → ¬ ds < ICD10_START →
        getActiveSystems "dx" ds de op ip = ["icd10"]) ∧
    (ds < ICD10_START → de ≥ ICD10_START →
        getActiveSystems "dx" ds de op ip = ["icd10", "icd9"]) ∧
    (∀ op2 ip2, getActiveSystems "dx" ds de op ip =
        getActiveSystems "dx" ds de op2 ip2) := by
  by_cases h1 : de ≥ ICD10_START <;> by_cases h2 : ds < ICD10_START <;>
    simp_all [getActiveSystems, getDxSystems, dxRuleSystems]

/-- **C1 (witness).** The example from the spec: `start=2010-01-01`,
`end=2020-01-01` resolves to exactly `icd10` and `icd9`. -/
theorem resolve_dx_spec_witness :
    getActiveSystems "dx" 20100101 20200101 false true = ["icd10", "icd9"] :=
  (resolve_dx_spec 20100101 20200101 false true).2.2.1 (by decide) (by decide)

/-- **C2 (counterexample).** The claim offers `start=2024-01-01`,
`end=2024-06-01` with both flags false as an input where the three medication
rules yield the empty set; in fact the `epic` rule fires there
(`dateEnd ≥ 2023-06-03`), so the rule-accumulated list is `["epic"]`, not
empty. -/
theorem resolve_medication_rules_not_empty_cex :
    ¬ medicationRuleSystems (decide ((20240101 : Int) < EPIC_GOLIVE))
        (decide ((20240601 : Int) ≥ EPIC_GOLIVE)) false false = [] := by
  decide

/-- **C2 (amended).** For the dictionary type `medication`, whenever at least
one rule fires the result contains `epic` iff `dateEnd ≥ 2023-06-03`,
`meditech` iff `dateStart < 2023-06-03` and inpatient, `centricity` iff
`dateStart < 2023-06-03` and outpatient; the result never contains any other
system; if no rule fires the result is exactly `["epic"]`; and at
`start=2024-01-01`, `end=2024-06-01` with both flags false the result is
`["epic"]` (produced by the `epic` rule itself, not the empty-set default). -/
theorem resolve_medication_spec (ds de : Int) (op ip : Bool) :
    (de ≥ EPIC_GOLIVE ∨ (ds < EPIC_GOLIVE ∧ ip = true) ∨
        (ds < EPIC_GOLIVE ∧ op = true) →
        ("epic" ∈ getActiveSystems "medication" ds de op ip ↔
            de ≥ EPIC_GOLIVE) ∧
        ("meditech" ∈ getActiveSystems "medication" ds de op ip ↔
            ds < EPIC_GOLIVE ∧ ip = true) ∧
        ("centricity" ∈ getActiveSystems "medication" ds de op ip ↔
            ds < EPIC_GOLIVE ∧ op = true)) ∧
    (∀ s ∈ getActiveSystems "medication" ds de op ip,
        s = "epic" ∨ s = "meditech" ∨ s = "centricity") ∧
    (¬ de ≥ EPIC_GOLIVE → ¬ (ds < EPIC_GOLIVE ∧ ip = true) →
        ¬ (ds < EPIC_GOLIVE ∧ op = true) →
        getActiveSystems "medication" ds de op ip = ["epic"]) ∧
    getActiveSystems "medication" 20240101 20240601 false false = ["epic"] := by
  refine ⟨?_, ?_, ?_, by decide⟩ <;>
    (by_cases h1 : de ≥ EPIC_GOLIVE <;> by_cases h2 : ds < EPIC_GOLIVE <;>
      cases op <;> cases ip <;>
      simp_all [getActiveSystems, getMedicationSystems, medicationRuleSystems] <;>
      tauto)

/-- **C2 (witness).** For a range entirely before the go-live with inpatient
selected, the amended claim places `meditech` in the result. -/
theorem resolve_medication_spec_witness :
    "meditech" ∈ getActiveSystems "medication" 20200101 20200601 false true :=
  (((resolve_medication_spec 20200101 20200601 false true).1
      (Or.inr (Or.inl ⟨by decide, rfl⟩))).2.1).mpr ⟨by decide, rfl⟩

/-- **C3.** For the dictionary type `location`, whenever at least one rule
fires the result contains `epic` iff `dateEnd ≥ 2023-06-03`, `gecb` iff
`dateStart < 2023-06-03` and outpatient, `meditech` iff
`dateStart < 2023-06-03` and inpatient; if no rule fires the result is
exactly `["epic"]`; and every range ending strictly before `2023-06-03` with
both flags true yields exactly `gecb` and `meditech`, without `epic`. -/
theorem resolve_location_spec (ds de : Int) (op ip : Bool) :
    (de ≥ EPIC_GOLIVE ∨ (ds < EPIC_GOLIVE ∧ op = true) ∨
        (ds < EPIC_GOLIVE ∧ ip = true) →
        ("epic" ∈ getActiveSystems "location" ds de op ip ↔
            de ≥ EPIC_GOLIVE) ∧
        ("gecb" ∈ getActiveSystems "location" ds de op ip ↔
            ds < EPIC_GOLIVE ∧ op = true) ∧
        ("meditech" ∈ getActiveSystems "location" ds de op ip ↔
            ds < EPIC_GOLIVE ∧ ip = true)) ∧
    (¬ de ≥ EPIC_GOLIVE → ¬ (ds < EPIC_GOLIVE ∧ op = true) →
        ¬ (ds < EPIC_GOLIVE ∧ ip = true) →
        getActiveSystems "location" ds de op ip = ["epic"]) ∧
    (ds ≤ de → de < EPIC_GOLIVE → op = true → ip = true →
        getActiveSystems "location" ds de op ip = ["gecb", "meditech"] ∧
        "epic" ∉ getActiveSystems "location" ds de op ip) := by
  by_cases h1 : de ≥ EPIC_GOLIVE <;> by_cases h2 : ds < EPIC_GOLIVE <;>
    cases op <;> cases ip <;>
    simp_all [getActiveSystems, getLocationSystems, locationRuleSystems]
  all_goals omega

/-- **C3 (witness).** The example from the spec: `start=2020-01-01`,
`end=2022-01-01` with both contexts selected resolves to exactly `gecb` and
`meditech`. -/
theorem resolve_location_spec_witness :
    getActiveSystems "location" 20200101 20220101 true true =
      ["gecb", "meditech"] :=
  ((resolve_location_spec 20200101 20220101 true true).2.2
    (by decide) (by decide) rfl rfl).1

/-- **C4.** For every enumerated dictionary type, every pair of date values
and every flag combination, `getActiveSystems` returns a non-empty list (it is
a total function, so it also never errors). -/
theorem resolve_total_nonempty (type : String)
    (h : type ∈ ["dx", "medication", "lab", "location", "procedure"])
    (ds de : Int) (op ip : Bool) :
    getActiveSystems type ds de op ip ≠ [] := by
  fin_cases h
  · exact default_ne_nil (dxRuleSystems ds de) "icd10"
  · exact default_ne_nil (medicationRuleSystems _ _ op ip) "epic"
  · exact default_ne_nil (labRuleSystems _ _) "epic"
  · exact default_ne_nil (locationRuleSystems _ _ op ip) "epic"
  · exact default_ne_nil (procedureRuleSystems _ _) "epic"

/-- **C4 (witness).** A concrete instantiation: `lab` with an arbitrary range
resolves to a non-empty list. -/
theorem resolve_total_nonempty_witness :
    getActiveSystems "lab" 20100101 20240101 false false ≠ [] :=
  resolve_total_nonempty "lab" (by decide) 20100101 20240101 false false

/-- **C9.** For every type string outside the five enumerated dictionary
types, `getActiveSystems` returns the empty list, regardless of dates and
flags. -/
theorem resolve_unknown_type_empty (type : String)
    (h : type ∉ ["dx", "medication", "lab", "location", "procedure"])
    (ds de : Int) (op ip : Bool) :
    getActiveSystems type ds de op ip = [] := by
  simp only [List.mem_cons, List.not_mem_nil, or_false, not_or] at h
  obtain ⟨h1, h2, h3, h4, h5⟩ := h
  simp [getActiveSystems, h1, h2, h3, h4, h5]

/-- **C9 (witness).** The unrecognized type `"note"` yields no systems. -/
theorem resolve_unknown_type_empty_witness :
    getActiveSystems "note" 20100101 20240101 true true = [] :=
  resolve_unknown_type_empty "note" (by decide) 20100101 20240101 true true

/-! ## KeywordMatcher (`countMatches` in `csv-download.js` / `github-push.js`)

The term is lower-cased, its leading/trailing `*` runs are stripped
(`kw.toLowerCase().replace` with the anchored star regex), an empty core
matches nothing, and otherwise the test is
`value.toLowerCase().indexOf(core) !== -1`. -/

/-- `s.toLowerCase()`, character by character. -/
def lowerChars (s : List Char) : List Char := s.map Char.toLower

/-- Remove the leading run of `*` characters (the `^\*+` half of the
stripping regex). -/
def stripLeadStars : List Char → List Char
  | '*' :: t => stripLeadStars t
  | s => s

/-- Remove the trailing run of `*` characters (the `\*+$` half of the
stripping regex). -/
def stripTrailStars (s : List Char) : List Char :=
  (stripLeadStars s.reverse).reverse

/-- The `core` computed by `countMatches`:
`kw.toLowerCase().replace(/^\*+|\*+$/g, '')`. -/
def termCore (kw : List Char) : List Char :=
  stripTrailStars (stripLeadStars (lowerChars kw))

/-- `hay.indexOf(needle) !== -1`: some suffix of `hay` starts with
`needle`. -/
def hasSub (hay needle : List Char) : Bool :=
  match hay with
  | [] => needle.isEmpty
  | c :: t => needle.isPrefixOf (c :: t) || hasSub t needle

/-- The compiled keyword predicate used by `countMatches`: an empty core
matches nothing; otherwise the core is searched for in the lower-cased
candidate value. -/
def keywordMatches (kw v : List Char) : Bool :=
  let core := termCore kw
  if core.isEmpty then false else hasSub (lowerChars v) core

lemma toLower_star : Char.toLower '*' = '*' := by decide

lemma stripLeadStars_cons_star (s : List Char) :
    stripLeadStars ('*' :: s) = stripLeadStars s := rfl

lemma stripLeadStars_cons (c : Char) (h : c ≠ '*') (s : List Char) :
    stripLeadStars (c :: s) = c :: s := by
  unfold stripLeadStars
  split
  · next t heq =>
    injection heq with h1 h2
    exact absurd h1 h
  · rfl

/-- `hasSub` is exactly substring containment. -/
lemma hasSub_iff (hay needle : List Char) :
    hasSub hay needle = true ↔ List.IsInfix needle hay := by
  induction hay with
  | nil => simp [hasSub, List.isEmpty_iff]
  | cons c t ih =>
    simp only [hasSub, Bool.or_eq_true, ih, List.isPrefixOf_iff_prefix]
    constructor
    · rintro (⟨u, hu⟩ | ⟨s, u, hu⟩)
      · exact ⟨[], u, hu⟩
      · exact ⟨c :: s, u, by simp [hu]⟩
    · rintro ⟨s, u, hu⟩
      cases s with
      | nil => exact Or.inl ⟨u, by simpa using hu⟩
      | cons a s2 =>
        simp only [List.cons_append] at hu
        injection hu with h1 h2
        exact Or.inr ⟨s2, u, h2⟩

/-- Appending a trailing `*` to any list leaves the star-stripped core
unchanged once the trailing strip runs. -/
lemma stripLeadStars_append_star (y : List Char) :
    stripLeadStars (y ++ ['*']) = stripLeadStars y ++ ['*'] ∨
      (stripLeadStars y = [] ∧ stripLeadStars (y ++ ['*']) = []) := by
  induction y with
  | nil => exact Or.inr ⟨rfl, rfl⟩
  | cons c t ih =>
    by_cases hc : c = '*'
    · subst hc
      simpa [stripLeadStars_cons_star] using ih
    · left
      rw [List.cons_append, stripLeadStars_cons c hc,
        stripLeadStars_cons c hc]
      simp

lemma stripTrailStars_append_star (z : List Char) :
    stripTrailStars (z ++ ['*']) = stripTrailStars z := by
  simp [stripTrailStars, List.reverse_append, stripLeadStars_cons_star]

/-- A leading `*` on the term does not change its core. -/
lemma termCore_cons_star (kw : List Char) :
    termCore ('*' :: kw) = termCore kw := by
  simp [termCore, lowerChars, toLower_star, stripLeadStars_cons_star]

/-- A trailing `*` on the term does not change its core. -/
lemma termCore_append_star (kw : List Char) :
    termCore (kw ++ ['*']) = termCore kw := by
  have hl : lowerChars (kw ++ ['*']) = lowerChars kw ++ ['*'] := by
    simp [lowerChars, toLower_star]
  simp only [termCore, hl]
  rcases stripLeadStars_append_star (lowerChars kw) with h | ⟨h1, h2⟩
  · rw [h, stripTrailStars_append_star]
  · rw [h1, h2]

/-- **C5 (counterexample).** The claim, as stated, makes the compiled
predicate equal to substring containment of the core for *every* term; for
the term `"*"` the core is empty, the code returns `false`, yet the empty
core is contained in every candidate, so the equivalence fails at term `"*"`
and candidate `"x"`. -/
theorem keyword_compile_containment_cex :
    ¬ ((keywordMatches ['*'] ['x'] = true) ↔
        List.IsInfix (termCore ['*']) (lowerChars ['x'])) := by
  intro h
  have h2 : List.IsInfix (termCore ['*']) (lowerChars ['x']) := by
    have hc : termCore ['*'] = [] := by decide
    rw [hc]
    exact ⟨[], lowerChars ['x'], by simp⟩
  have h1 := h.mpr h2
  exact absurd h1 (by decide)

/-- **C5 (amended).** The compiled predicate depends only on the core of the term;
for a term with non-empty core it is exactly substring containment of the
core in the lower-cased candidate; leading or trailing `*` markers never
change the predicate (so `c`, `*c`, `c*`, `*c*` compile extensionally
equally); and the examples from the spec hold: `*itis` accepts `arthritis` and
`ovar*` accepts `ovarian`. (For a term whose core is empty, the predicate is
constantly false — see the degenerate-term claim — rather than the constantly
true predicate that containment of the empty core would give.) -/
theorem keyword_compile_spec (kw v : List Char) :
    (∀ kw2, termCore kw2 = termCore kw →
        keywordMatches kw2 v = keywordMatches kw v) ∧
    (termCore kw ≠ [] →
        (keywordMatches kw v = true ↔
          List.IsInfix (termCore kw) (lowerChars v))) ∧
    keywordMatches ('*' :: kw) v = keywordMatches kw v ∧
    keywordMatches (kw ++ ['*']) v = keywordMatches kw v ∧
    keywordMatches ['*', 'i', 't', 'i', 's']
      ['a', 'r', 't', 'h', 'r', 'i', 't', 'i', 's'] = true ∧
    keywordMatches ['o', 'v', 'a', 'r', '*']
      ['o', 'v', 'a', 'r', 'i', 'a', 'n'] = true := by
  refine ⟨?_, ?_, ?_, ?_, by decide, by decide⟩
  · intro kw2 h
    simp [keywordMatches, h]
  · intro h
    simp only [keywordMatches, List.isEmpty_iff, if_neg h, hasSub_iff]
  · simp [keywordMatches, termCore_cons_star]
  · simp [keywordMatches, termCore_append_star]

/-- **C5 (witness).** Applying the amended claim at the term `ovar*` and the
candidate `ovarian`: the core `ovar` is contained in the candidate. -/
theorem keyword_compile_spec_witness :
    List.IsInfix (termCore ['o', 'v', 'a', 'r', '*'])
      (lowerChars ['o', 'v', 'a', 'r', 'i', 'a', 'n']) :=
  ((keyword_compile_spec ['o', 'v', 'a', 'r', '*']
      ['o', 'v', 'a', 'r', 'i', 'a', 'n']).2.1 (by decide)).mp (by decide)

/-- **C6.** A term whose core is empty after lower-casing and star-stripping
compiles to the constantly-false predicate: it matches no candidate at all
(and, being a total function, never errors). -/
theorem keyword_empty_core_spec (kw : List Char) (h : termCore kw = [])
    (v : List Char) : keywordMatches kw v = false := by
  simp [keywordMatches, h]

/-- **C6 (witness).** The example from the spec: `"***"` has an empty core and
matches nothing, e.g. not `"anything"`. -/
theorem keyword_empty_core_spec_witness :
    termCore ['*', '*', '*'] = [] ∧
    keywordMatches ['*', '*', '*']
      ['a', 'n', 'y', 't', 'h', 'i', 'n', 'g'] = false :=
  ⟨by decide, keyword_empty_core_spec ['*', '*', '*'] (by decide) _⟩

/-! ## CSV export (`download` and `csvQuote` in `csv-download.js`) -/

/-- A JavaScript cell value as it appears in a unified row object. -/
inductive JVal where
  | vStr : List Char → JVal
  | vBool : Bool → JVal
  | vNull : JVal
deriving DecidableEq

/-- A row object: its ordered property list (JavaScript object key order). -/
def JRow := List (String × JVal)

/-- JavaScript truthiness of a property access such as `row.desired`: a
missing property (`undefined`), `null`, `false` and the empty string are
falsy. -/
def truthy : Option JVal → Bool
  | none => false
  | some (JVal.vStr s) => !s.isEmpty
  | some (JVal.vBool b) => b
  | some JVal.vNull => false

/-- `String(val)` for a value that survived the `undefined`/`null` → empty-string
normalization step. -/
def jvalText : JVal → List Char
  | JVal.vStr s => s
  | JVal.vBool b =>
      if b then ['t', 'r', 'u', 'e'] else ['f', 'a', 'l', 's', 'e']
  | JVal.vNull => []

/-- Double every `"` character: the global quote-doubling replace step. -/
def escQuotes : List Char → List Char
  | [] => []
  | c :: t => if c = '"' then '"' :: '"' :: escQuotes t else c :: escQuotes t

/-- `csvQuote`: wrap the field in double quotes, doubling embedded quotes,
exactly when the value contains a comma, a double quote, or a newline;
otherwise emit it verbatim. -/
def csvQuote (val : List Char) : List Char :=
  if val.contains ',' || val.contains '"' || val.contains '\n' then
    '"' :: (escQuotes val ++ ['"'])
  else val

/-- The reserved trailing columns of the dynamically built export schema. -/
def reservedCols : List String := ["desired", "category", "keyword_matched"]

/-- `dataCols` in `download`: the keys of the sample row minus internal
`_`-prefixed fields and the reserved columns. -/
def dataColsOf (sample : JRow) : List String :=
  (sample.map Prod.fst).filter
    (fun k => !(k.startsWith "_") && !(reservedCols.contains k))

/-- `schema` in `download`: all data columns, then the fixed trailing
`desired`, `category`, `keyword_matched`. -/
def downloadSchema (sample : JRow) : List String :=
  dataColsOf sample ++ reservedCols

/-- One emitted field of a data line: the `desired` column renders each row value of the
`desired` flag as `TRUE`/`FALSE`; any other column renders the looked-up
value, with missing and `null` values becoming the empty string; the result
is then CSV-quoted. -/
def downloadField (row : JRow) (col : String) : List Char :=
  let val : List Char :=
    if col = "desired" then
      if truthy (List.lookup col row) then ['T', 'R', 'U', 'E']
      else ['F', 'A', 'L', 'S', 'E']
    else
      match List.lookup col row with
      | none => []
      | some JVal.vNull => []
      | some w => jvalText w
  csvQuote val

/-- One data line of the CSV: the schema fields joined with commas. -/
def downloadLine (schema : List String) (row : JRow) : List Char :=
  List.intercalate [','] (schema.map (downloadField row))

/-- The CSV text built by `download` for the rows it exports: header line
(the schema joined with commas) followed by one line per row; `download`
returns early (`null`) on an empty row list. -/
def downloadCsv (rows : List JRow) : Option (List Char) :=
  match rows with
  | [] => none
  | sample :: _ =>
    let schema := downloadSchema sample
    let header := List.intercalate [','] (schema.map String.toList)
    some (List.intercalate ['\n'] (header :: rows.map (downloadLine schema)))

lemma csvQuote_TRUE : csvQuote ['T', 'R', 'U', 'E'] = ['T', 'R', 'U', 'E'] := by
  decide

lemma csvQuote_FALSE :
    csvQuote ['F', 'A', 'L', 'S', 'E'] = ['F', 'A', 'L', 'S', 'E'] := by
  decide

/-- **C7.** For every non-empty exported row list, the schema (and hence the
header column order) ends with the fixed trailing sequence `desired`,
`category`, `keyword_matched` after all data columns (which never include a
reserved or internal column), the CSV is actually produced, and in every data
line the `desired` field is rendered as the text `TRUE` when the
`desired` flag of the row is truthy and `FALSE` otherwise. -/
theorem download_spec (sample : JRow) (rest : List JRow) :
    (∃ dataCols, downloadSchema sample =
        dataCols ++ ["desired", "category", "keyword_matched"] ∧
        ∀ k ∈ dataCols, ¬ k ∈ reservedCols ∧ ¬ k.startsWith "_") ∧
    (∃ body, downloadCsv (sample :: rest) = some body) ∧
    (∀ row ∈ sample :: rest,
        downloadField row "desired" =
          if truthy (List.lookup "desired" row) then ['T', 'R', 'U', 'E']
          else ['F', 'A', 'L', 'S', 'E']) := by
  refine ⟨⟨dataColsOf sample, rfl, ?_⟩, ⟨_, rfl⟩, ?_⟩
  · intro k hk
    have h2 := (List.mem_filter.mp hk).2
    simp only [Bool.and_eq_true, Bool.not_eq_true'] at h2
    constructor
    · intro hmem
      have : reservedCols.contains k = true := List.elem_eq_true_of_mem hmem
      rw [this] at h2
      exact absurd h2.2 (by simp)
    · intro hs
      rw [hs] at h2
      exact absurd h2.1 (by simp)
  · intro row hrow
    rcases Bool.eq_false_or_eq_true (truthy (List.lookup "desired" row)) with
      hd | hd <;>
      simp [downloadField, hd, csvQuote_TRUE, csvQuote_FALSE]

/-- **C7 (witness).** A concrete two-row export: the `desired` field of the selected row
field is the text `TRUE`. -/
theorem download_spec_witness :
    downloadField
      [("name", JVal.vStr ['a', 's', 'p']), ("desired", JVal.vBool true)]
      "desired" = ['T', 'R', 'U', 'E'] := by
  have h := (download_spec
      [("name", JVal.vStr ['a', 's', 'p']), ("desired", JVal.vBool true)]
      [[("name", JVal.vStr ['i', 'b', 'u']), ("desired", JVal.vBool false)]]
    ).2.2 _ (List.mem_cons_self _ _)
  rw [h]
  decide

/-- Collapse each doubled `"` back to a single one: the inverse direction of
`escQuotes` used by a standard CSV reader. -/
def collapseQuotes : List Char → List Char
  | [] => []
  | [c] => [c]
  | c1 :: c2 :: t =>
    if c1 = '"' ∧ c2 = '"' then '"' :: collapseQuotes t
    else c1 :: collapseQuotes (c2 :: t)

/-- Standard CSV unescaping of one emitted field (the reader side posited by the claim):
when the field is wrapped in double quotes, strip them and collapse doubled
quotes; otherwise take the field verbatim. -/
def csvUnquote (s : List Char) : List Char :=
  if 2 ≤ s.length ∧ s.head? = some '"' ∧ s.getLast? = some '"' then
    collapseQuotes (s.drop 1).dropLast
  else s

lemma escQuotes_cons (c : Char) (t : List Char) :
    escQuotes (c :: t) =
      if c = '"' then '"' :: '"' :: escQuotes t else c :: escQuotes t := rfl

lemma collapseQuotes_cons2 (c1 c2 : Char) (t : List Char) :
    collapseQuotes (c1 :: c2 :: t) =
      if c1 = '"' ∧ c2 = '"' then '"' :: collapseQuotes t
      else c1 :: collapseQuotes (c2 :: t) := rfl

/-- Doubling quotes and then collapsing doubled quotes is the identity. -/
lemma collapse_escQuotes (s : List Char) :
    collapseQuotes (escQuotes s) = s := by
  induction s with
  | nil => rfl
  | cons c t ih =>
    by_cases hc : c = '"'
    · subst hc
      rw [escQuotes_cons, if_pos rfl, collapseQuotes_cons2,
        if_pos ⟨rfl, rfl⟩, ih]
    · cases t with
      | nil =>
        rw [escQuotes_cons, if_neg hc]
        rfl
      | cons d r =>
        obtain ⟨e, es, he⟩ : ∃ e es, escQuotes (d :: r) = e :: es := by
          by_cases hd : d = '"'
          · subst hd
            exact ⟨'"', '"' :: escQuotes r, by rw [escQuotes_cons, if_pos rfl]⟩
          · exact ⟨d, escQuotes r, by rw [escQuotes_cons, if_neg hd]⟩
        rw [escQuotes_cons, if_neg hc, he, collapseQuotes_cons2,
          if_neg (fun h => hc h.1), ← he, ih]

/-- **C10.** `csvQuote` wraps the field in double quotes with embedded quotes
doubled exactly when the value contains a comma, a double quote, or a
newline, and emits it verbatim otherwise; in both cases standard CSV
unescaping of the emitted field recovers the original string. -/
theorem csvQuote_roundtrip_spec (s : List Char) :
    ((s.contains ',' || s.contains '"' || s.contains '\n') = true →
        csvQuote s = '"' :: (escQuotes s ++ ['"'])) ∧
    ((s.contains ',' || s.contains '"' || s.contains '\n') = false →
        csvQuote s = s) ∧
    csvUnquote (csvQuote s) = s := by
  have hfne : ∀ b : Bool, b = false → ¬ b = true := by decide
  refine ⟨fun h => by rw [csvQuote, if_pos h],
    fun h => by rw [csvQuote, if_neg (hfne _ h)], ?_⟩
  rcases Bool.eq_false_or_eq_true
      (s.contains ',' || s.contains '"' || s.contains '\n') with h | h
  · have hcq : csvQuote s = '"' :: (escQuotes s ++ ['"']) := by
      rw [csvQuote, if_pos h]
    have hcond : 2 ≤ ('"' :: (escQuotes s ++ ['"'])).length ∧
        ('"' :: (escQuotes s ++ ['"'])).head? = some '"' ∧
        ('"' :: (escQuotes s ++ ['"'])).getLast? = some '"' := by
      refine ⟨by simp, by simp, ?_⟩
      rw [show ('"' :: (escQuotes s ++ ['"'])) = ('"' :: escQuotes s) ++ ['"']
          from by simp]
      exact List.getLast?_concat _
    rw [hcq, csvUnquote, if_pos hcond]
    simp only [List.drop_succ_cons, List.drop_zero, List.dropLast_concat]
    exact collapse_escQuotes s
  · have hcq : csvQuote s = s := by
      rw [csvQuote, if_neg (hfne _ h)]
    have hcond : ¬ (2 ≤ s.length ∧ s.head? = some '"' ∧
        s.getLast? = some '"') := by
      rintro ⟨-, hh, -⟩
      cases s with
      | nil => simp at hh
      | cons a t =>
        simp only [List.head?_cons, Option.some.injEq] at hh
        subst hh
        rw [Bool.or_eq_false_iff, Bool.or_eq_false_iff] at h
        have h2 := h.1.2
        rw [List.contains_cons] at h2
        simp at h2
    rw [hcq, csvUnquote, if_neg hcond]

/-- **C10 (witness).** A field containing a comma and a quote is emitted
quoted-and-escaped, and unescaping recovers it. -/
theorem csvQuote_roundtrip_spec_witness :
    csvQuote ['a', ',', '"'] = '"' :: (escQuotes ['a', ',', '"'] ++ ['"']) ∧
    csvUnquote (csvQuote ['a', ',', '"']) = ['a', ',', '"'] :=
  ⟨(csvQuote_roundtrip_spec ['a', ',', '"']).1 (by decide),
   (csvQuote_roundtrip_spec ['a', ',', '"']).2.2⟩

/-! ## Reload path of the app controller (`app.js`)

`updateSystemsAndReload` recomputes `state.activeSystems[type]` via
`SystemLogic.getActiveSystems` and then runs `loadAllData`, which awaits
`loadTypeData` per type. `loadTypeData` reads `state.activeSystems[type]`
once, at call time (`const systems = state.activeSystems[type]`), awaits its
CSV fetches, filters the fetched rows by the captured systems, and then
writes `state.data[type] = merged` unconditionally — there is no epoch
counter, token, or staleness check anywhere on this path. -/

/-- `s.toLowerCase()` on a whole string (the `row.source_db.toLowerCase()`
step of `loadTypeData`). -/
def lowerStr (s : String) : String := String.mk (lowerChars s.data)

/-- A raw CSV row of a unified per-type file, as parsed by `loadCsv`: its
`source_db` tag and its payload. (The selection-annotation fields that
`loadTypeData` adds to each merged row play no part in whether a stale
result is applied, so they are not carried here.) -/
structure RawRow where
  source_db : String
  name : String
deriving DecidableEq

/-- The per-type slice of the mutable app state that the reload path touches:
`state.activeSystems[type]` and `state.data[type]`. -/
structure TypeState where
  activeSystems : List String
  data : List RawRow
deriving DecidableEq

/-- The row-merging loop of `loadTypeData` for the unified-file types
(`medication`, `lab`, `procedure`): a fetched row is kept exactly when its
lower-cased `source_db` tag is among the captured active systems
(`if (!systems.includes(rowSource)) return`), in file order. -/
def mergeRows (systems : List String) (rows : List RawRow) : List RawRow :=
  rows.filter (fun r => systems.contains (lowerStr r.source_db))

/-- The completion of one `loadTypeData` invocation, when its awaited fetches
resolve: `state.data[type] = merged`, computed from the systems the
invocation captured at call time and written unconditionally — the source has
no check that a newer reload has started in the meantime. -/
def finishLoadTypeData (s : TypeState) (captured : List String)
    (rows : List RawRow) : TypeState :=
  { s with data := mergeRows captured rows }

/-- **C8 (the code at the failing input).** Reload A starts with a
pre-cutover inpatient medication range and captures
`getActiveSystems "medication" 2020-01-01 2022-01-01 false true`; reload B
starts before the data of A arrives, with a post-cutover range, and its load
completes first, making the Epic row the active collection; then the stale
load of A completes and `loadTypeData` applies it anyway, replacing the
active collection with the Meditech row. The late stale result changes the
active unified collection, contradicting the stale-epoch-discard guarantee
the spec requires. -/
theorem stale_reload_overwrites :
    (let sysA := getActiveSystems "medication" 20200101 20220101 false true
     let sysB := getActiveSystems "medication" 20240101 20240601 false true
     let rows : List RawRow :=
       [⟨"Epic", "metformin"⟩, ⟨"Meditech", "aspirin"⟩]
     let afterB := finishLoadTypeData ⟨sysB, []⟩ sysB rows
     let afterA := finishLoadTypeData afterB sysA rows
     afterB.data = [⟨"Epic", "metformin"⟩] ∧
     afterA.data = [⟨"Meditech", "aspirin"⟩] ∧
     afterA.data ≠ afterB.data) := by
  decide

end CrdwSweep
